import Mathlib

/-!
Verification of the filename-parsing component of `MakeMP4s.py`
(`MediaInfo`, `FilenameParser.clean_title`, `FilenameParser.parse_filename`,
`FilenameParser.generate_filename`).

The Python component matches filenames against four hand-written regular
expressions, all of the shape `^((?:[A-Za-z0-9.]+[. ])*?)TAIL`: a lazily
repeated prefix block (a greedy run of `[A-Za-z0-9.]` followed by one `.` or
space), then a pattern-specific tail.  The embedding below reproduces the
CPython backtracking search for exactly these patterns: the lazy star tries
zero further repetitions first, and inside one repetition the greedy plus
tries the longest character run first.  Strings are modelled as `List Char`
with the ASCII behaviour of Python for the character classes involved.
-/

namespace MakeMP4s

/-- The `MediaInfo` dataclass: `title` required, the rest default `None`. -/
structure MediaInfo where
  title : String
  year : Option String := none
  season : Option String := none
  episode : Option String := none
deriving DecidableEq

/-- The character class `[A-Za-z0-9.]` used in the repeated prefix block. -/
def isClassA (c : Char) : Bool :=
  c.isAlpha || c.isDigit || c == '.'

/-- The character class `[. ]` closing each prefix block. -/
def isSepChar (c : Char) : Bool :=
  c == '.' || c == ' '

/-- Python `\s` restricted to ASCII: the whitespace accepted by `str.split`. -/
def isPySpace (c : Char) : Bool :=
  c == ' ' || c == '\t' || c == '\n' || c == '\r' || c == '\x0b' || c == '\x0c'

/-- Python `\w` restricted to ASCII: alphanumeric or underscore. -/
def isWordChar (c : Char) : Bool :=
  c.isAlpha || c.isDigit || c == '_'

/-- Length of the maximal leading run of `[A-Za-z0-9.]` characters. -/
def countClassA : List Char → Nat
  | [] => 0
  | c :: rest => if isClassA c then countClassA rest + 1 else 0

/-- All ways one repetition `[A-Za-z0-9.]+[. ]` can match at the head of `l`,
as `(consumed, rest)` pairs, in CPython backtracking priority order: the
greedy `+` takes `k` characters for `k` from the maximal run length down
to `1`, and the repetition succeeds when the next character is `.` or
space. -/
def repCandidates (l : List Char) : List (List Char × List Char) :=
  (List.range (countClassA l)).reverse.filterMap (fun j =>
    match l.drop (j + 1) with
    | c :: rest => if isSepChar c then some (l.take (j + 2), rest) else none
    | [] => none)

/-- The backtracking search for `^((?:[A-Za-z0-9.]+[. ])*?)TAIL`: being lazy,
the star first hands the current position to the tail, and only on failure
tries one more repetition (candidates in `repCandidates` order).  `pre`
accumulates the group-1 capture.  Every repetition consumes at least two
characters, so fuel `l.length + 1` never runs out. -/
def starMatch {α : Type} (tail : List Char → Option α) :
    Nat → List Char → List Char → Option (List Char × α)
  | 0, _, _ => none
  | fuel + 1, pre, l =>
    match tail l with
    | some a => some (pre, a)
    | none => (repCandidates l).findSome? (fun p => starMatch tail fuel (pre ++ p.1) p.2)

/-- Run one full pattern `^((?:[A-Za-z0-9.]+[. ])*?)TAIL` against `l`,
returning the group-1 capture and the tail captures. -/
def runPattern {α : Type} (tail : List Char → Option α) (l : List Char) :
    Option (List Char × α) :=
  starMatch tail (l.length + 1) [] l

/-- All ways `(\d{1,2})` can match at the head of `l`, as
`(capture, rest)` pairs, two digits first (greedy). -/
def matchDigits12 (l : List Char) : List (List Char × List Char) :=
  match l with
  | c1 :: c2 :: rest =>
    if c1.isDigit then
      if c2.isDigit then [([c1, c2], rest), ([c1], c2 :: rest)]
      else [([c1], c2 :: rest)]
    else []
  | [c1] => if c1.isDigit then [([c1], [])] else []
  | [] => []

/-- Matcher for `(\d{4})` at the head of `l` (exactly four digits, no alternatives). -/
def matchDigits4 (l : List Char) : Option (List Char) :=
  match l with
  | c1 :: c2 :: c3 :: c4 :: _ =>
    if c1.isDigit && c2.isDigit && c3.isDigit && c4.isDigit then
      some [c1, c2, c3, c4]
    else none
  | _ => none

/-- Tail of TV pattern 1, `S(\d{1,2})E(\d{1,2})`: returns the season and
episode digit captures. -/
def tvTail1 (l : List Char) : Option (List Char × List Char) :=
  match l with
  | 'S' :: rest =>
    (matchDigits12 rest).findSome? (fun p =>
      match p.2 with
      | 'E' :: rest2 => (matchDigits12 rest2).findSome? (fun q => some (p.1, q.1))
      | _ => none)
  | _ => none

/-- Tail of TV pattern 2, `(\d{1,2})x(\d{1,2})`. -/
def tvTail2 (l : List Char) : Option (List Char × List Char) :=
  (matchDigits12 l).findSome? (fun p =>
    match p.2 with
    | 'x' :: rest2 => (matchDigits12 rest2).findSome? (fun q => some (p.1, q.1))
    | _ => none)

/-- Tail of movie pattern 1, `(?:[\[(]?(\d{4})[\])]?)`: an optional (greedy)
opening bracket, four captured digits, and an optional closing bracket that
can never fail and captures nothing. -/
def movieTail1 (l : List Char) : Option (List Char) :=
  match l with
  | c :: rest =>
    if c == '[' || c == '(' then
      match matchDigits4 rest with
      | some y => some y
      | none => matchDigits4 l
    else matchDigits4 l
  | [] => none

/-- Tail of movie pattern 2, `\((\d{4})\)`. -/
def movieTail2 (l : List Char) : Option (List Char) :=
  match l with
  | '(' :: c1 :: c2 :: c3 :: c4 :: ')' :: _ =>
    if c1.isDigit && c2.isDigit && c3.isDigit && c4.isDigit then
      some [c1, c2, c3, c4]
    else none
  | _ => none

/-- Match of the first TV pattern, as run by the parser. -/
def tvPattern1 (l : List Char) : Option (List Char × (List Char × List Char)) :=
  runPattern tvTail1 l

/-- Match of the second TV pattern, as run by the parser. -/
def tvPattern2 (l : List Char) : Option (List Char × (List Char × List Char)) :=
  runPattern tvTail2 l

/-- Match of the first movie pattern, as run by the parser. -/
def moviePattern1 (l : List Char) : Option (List Char × List Char) :=
  runPattern movieTail1 l

/-- Match of the second movie pattern, as run by the parser. -/
def moviePattern2 (l : List Char) : Option (List Char × List Char) :=
  runPattern movieTail2 l

/-- The TV pattern list, in declaration order. -/
def tv_patterns : List (List Char → Option (List Char × (List Char × List Char))) :=
  [tvPattern1, tvPattern2]

/-- The movie pattern list, in declaration order. -/
def movie_patterns : List (List Char → Option (List Char × List Char)) :=
  [moviePattern1, moviePattern2]

/-- Python `int` on a string of decimal digits. -/
def pyInt (digits : List Char) : Nat :=
  digits.foldl (fun acc c => acc * 10 + (c.toNat - 48)) 0

/-- First cleaning step: replace every dot and underscore by a space. -/
def replaceSeps (l : List Char) : List Char :=
  l.map (fun c => if c == '.' || c == '_' then ' ' else c)

/-- Second cleaning step: drop characters that are not word-class, whitespace or hyphen. -/
def removeUnwanted (l : List Char) : List Char :=
  l.filter (fun c => isWordChar c || isPySpace c || c == '-')

/-- Helper for `str.split()`: splits on whitespace runs, dropping empty
pieces; `acc` holds the current word reversed. -/
def splitWordsAux : List Char → List Char → List (List Char)
  | [], acc => if acc.isEmpty then [] else [acc.reverse]
  | c :: rest, acc =>
    if isPySpace c then
      if acc.isEmpty then splitWordsAux rest []
      else acc.reverse :: splitWordsAux rest []
    else splitWordsAux rest (c :: acc)

/-- Python `str.split()` with no argument. -/
def splitWords (l : List Char) : List (List Char) :=
  splitWordsAux l []

/-- Python `str.capitalize()` (ASCII): first character upper-cased, the rest
lower-cased. -/
def capitalizeWord : List Char → List Char
  | [] => []
  | c :: rest => c.toUpper :: rest.map Char.toLower

/-- Python `' '.join`. -/
def joinSpace : List (List Char) → List Char
  | [] => []
  | [w] => w
  | w :: ws => w ++ ' ' :: joinSpace ws

/-- Python `str.strip()` (ASCII whitespace). -/
def pyStrip (l : List Char) : List Char :=
  ((l.dropWhile isPySpace).reverse.dropWhile isPySpace).reverse

/-- Title cleaning, as in the source: replace separators, filter, title-case, trim. -/
def clean_title (s : String) : String :=
  String.mk (pyStrip (joinSpace
    ((splitWords (removeUnwanted (replaceSeps s.data))).map capitalizeWord)))

/-- Python `str.zfill` (left pad with `'0'` to `width`, padding after a
leading sign character if present). -/
def zfill (s : String) (width : Nat) : String :=
  match s.data with
  | c :: rest =>
    if c == '+' || c == '-' then
      String.mk (c :: (List.replicate (width - s.length) '0' ++ rest))
    else
      String.mk (List.replicate (width - s.length) '0' ++ s.data)
  | [] => String.mk (List.replicate width '0')

/-- The parser: try the TV patterns in order, then the
movie patterns in order, else fall back to the cleaned title.  TV matches
store `str(int(...))` of the digit captures (stripping leading zeros);
movie matches store the year capture verbatim. -/
def parse_filename (s : String) : MediaInfo :=
  match tv_patterns.findSome? (fun pat => pat s.data) with
  | some (pre, se, ep) =>
    { title := clean_title (String.mk pre)
      season := some (Nat.repr (pyInt se))
      episode := some (Nat.repr (pyInt ep)) }
  | none =>
    match movie_patterns.findSome? (fun pat => pat s.data) with
    | some (pre, yr) =>
      { title := clean_title (String.mk pre)
        year := some (String.mk yr) }
    | none => { title := clean_title s }

/-- Python truthiness of an `Optional[str]` field: `None` and `""` are
falsy. -/
def pyTruthy : Option String → Bool
  | none => false
  | some s => !s.isEmpty

/-- Rendering of a `MediaInfo` back to a display filename. -/
def generate_filename (m : MediaInfo) : String :=
  if pyTruthy m.season && pyTruthy m.episode then
    m.title ++ " - S" ++ zfill (m.season.getD "") 2 ++ "E" ++ zfill (m.episode.getD "") 2
  else if pyTruthy m.year then
    m.title ++ " (" ++ m.year.getD "" ++ ")"
  else
    m.title

/-- Title cleaning as the specification words it: replace dot and underscore
by spaces, keep only characters that are alphanumeric, whitespace or hyphen,
capitalize each whitespace-separated word, trim surrounding whitespace.
(The second step in the source keeps `\w`, i.e. also underscore; the two agree
because the first step has already removed every underscore.) -/
def cleanTitleSpec (s : String) : String :=
  String.mk (pyStrip (joinSpace
    ((splitWords ((replaceSeps s.data).filter
      (fun c => c.isAlphanum || isPySpace c || c == '-'))).map capitalizeWord)))

/-- Variant of `parse_filename` with the second movie pattern removed from the movie
pattern list, for the dead-pattern claim. -/
def parse_filename_noM2 (s : String) : MediaInfo :=
  match tv_patterns.findSome? (fun pat => pat s.data) with
  | some (pre, se, ep) =>
    { title := clean_title (String.mk pre)
      season := some (Nat.repr (pyInt se))
      episode := some (Nat.repr (pyInt ep)) }
  | none =>
    match [moviePattern1].findSome? (fun pat => pat s.data) with
    | some (pre, yr) =>
      { title := clean_title (String.mk pre)
        year := some (String.mk yr) }
    | none => { title := clean_title s }

end MakeMP4s

namespace MakeMP4s

/-- C3: `parse_filename "Show.Name.S01E02"` and `parse_filename "Show.Name.1x02"`
both yield title `"Show Name"`, season `"1"`, episode `"2"` (integer-normalized
strings) and no year. -/
theorem c3_tv_examples :
    parse_filename "Show.Name.S01E02" =
      { title := "Show Name", season := some "1", episode := some "2" } ∧
    parse_filename "Show.Name.1x02" =
      { title := "Show Name", season := some "1", episode := some "2" } :=
  ⟨by decide, by decide⟩

/-- C4 (code behaviour at the failing input): on `"Movie.Name.2024.1080p"` the
greedy prefix run of the first movie pattern swallows `"2024."` before the lazy
star yields to the tail, so the code extracts year `"1080"` from the
resolution token and title `"Movie Name 2024"`, not year `"2024"` and title
`"Movie Name"` as the specification claims.  The second example of the claim,
`"Movie.Name.(2024)"`, does behave as specified. -/
theorem c4_code_behavior :
    parse_filename "Movie.Name.2024.1080p" =
      { title := "Movie Name 2024", year := some "1080" } ∧
    parse_filename "Movie.Name.(2024)" =
      { title := "Movie Name", year := some "2024" } :=
  ⟨by decide, by decide⟩

/-- C7: rendering after parsing re-pads season/episode to two digits:
`generate_filename (parse_filename "Show.Name.S1E2") = "Show Name - S01E02"`,
and parsing strips leading zeros, so `"Show.S09E09"` and `"Show.S9E9"` parse
to equal `MediaInfo` values. -/
theorem c7_zero_padding :
    generate_filename (parse_filename "Show.Name.S1E2") = "Show Name - S01E02" ∧
    parse_filename "Show.S09E09" = parse_filename "Show.S9E9" :=
  ⟨by decide, by decide⟩

/-- C1: `parse_filename` is total by construction (it is a Lean function, so
it terminates and never throws for any string), and when none of the two TV
patterns and none of the two movie patterns matches the input, it returns
`MediaInfo` with title `clean_title s` and year, season and episode all
unset. -/
theorem c1_fallback (s : String)
    (h1 : tvPattern1 s.data = none) (h2 : tvPattern2 s.data = none)
    (h3 : moviePattern1 s.data = none) (h4 : moviePattern2 s.data = none) :
    parse_filename s = { title := clean_title s } := by
  simp [parse_filename, tv_patterns, movie_patterns, h1, h2, h3, h4]

/-- Witness for C1 at the patternless input `"random_file_name"`. -/
theorem c1_fallback_witness :
    parse_filename "random_file_name" = { title := clean_title "random_file_name" } :=
  c1_fallback "random_file_name" (by decide) (by decide) (by decide) (by decide)

/-- C2: whenever some TV pattern matches the input, the result has season and
episode set and year unset — the movie patterns are never consulted, so a
filename that also matches a movie pattern is still classified as TV. -/
theorem c2_tv_priority (s : String)
    (h : (tvPattern1 s.data).isSome ∨ (tvPattern2 s.data).isSome) :
    (parse_filename s).season.isSome ∧ (parse_filename s).episode.isSome ∧
      (parse_filename s).year = none := by
  unfold parse_filename
  cases htv : tv_patterns.findSome? (fun pat => pat s.data) with
  | none =>
    exfalso
    simp [tv_patterns] at htv
    rcases h with h | h
    · rw [htv.1] at h; simp at h
    · rw [htv.2] at h; simp at h
  | some r =>
    obtain ⟨pre, se, ep⟩ := r
    simp

/-- Witness for C2 at `"Show.Name.S01E02.2024"`, an input that matches both a
TV pattern and a movie pattern. -/
theorem c2_tv_priority_witness :
    (parse_filename "Show.Name.S01E02.2024").season.isSome ∧
    (parse_filename "Show.Name.S01E02.2024").episode.isSome ∧
    (parse_filename "Show.Name.S01E02.2024").year = none :=
  c2_tv_priority "Show.Name.S01E02.2024" (Or.inl (by decide))

/-- C6: for every input, season and episode are either both set or both
absent, and year is never set together with season/episode: the TV branch
sets exactly season and episode, the movie branch exactly year, and the
fallback none of the three. -/
theorem c6_invariant (s : String) :
    ((parse_filename s).season.isSome ↔ (parse_filename s).episode.isSome) ∧
    ((parse_filename s).year.isSome →
      (parse_filename s).season = none ∧ (parse_filename s).episode = none) := by
  unfold parse_filename
  cases htv : tv_patterns.findSome? (fun pat => pat s.data) with
  | none =>
    cases hm : movie_patterns.findSome? (fun pat => pat s.data) with
    | none => simp
    | some r => obtain ⟨pre, yr⟩ := r; simp
  | some r => obtain ⟨pre, se, ep⟩ := r; simp

/-- Witness for C6 at the movie-classified input `"Movie.Name.(2024)"`. -/
theorem c6_invariant_witness :
    (parse_filename "Movie.Name.(2024)").season = none ∧
    (parse_filename "Movie.Name.(2024)").episode = none :=
  (c6_invariant "Movie.Name.(2024)").2 (by decide)

theorem data_mk (l : List Char) : (String.mk l).data = l := rfl

/-- Characters coming out of `replaceSeps` are never a dot or an underscore:
both are mapped to a space. -/
theorem replaceSeps_chars {c : Char} {l : List Char} (h : c ∈ replaceSeps l) :
    c ≠ '.' ∧ c ≠ '_' := by
  obtain ⟨a, -, ha⟩ := List.mem_map.mp h
  by_cases hd : (a == '.' || a == '_') = true
  · rw [if_pos hd] at ha
    subst ha
    exact ⟨by decide, by decide⟩
  · rw [if_neg hd] at ha
    subst ha
    simpa using hd

theorem ofNat_upper_ne :
    ∀ m : Nat, m < 91 → 65 ≤ m → Char.ofNat m ≠ '.' ∧ Char.ofNat m ≠ '_' := by
  decide

theorem ofNat_lower_ne :
    ∀ m : Nat, m < 123 → 97 ≤ m → Char.ofNat m ≠ '.' ∧ Char.ofNat m ≠ '_' := by
  decide

/-- Upper-casing maps a non-separator character to a non-separator. -/
theorem toUpper_ne_sep {c : Char} (h : c ≠ '.' ∧ c ≠ '_') :
    c.toUpper ≠ '.' ∧ c.toUpper ≠ '_' := by
  simp only [Char.toUpper]
  split
  · next hcond => exact ofNat_upper_ne (c.toNat - 32) (by omega) (by omega)
  · exact h

/-- Lower-casing maps a non-separator character to a non-separator. -/
theorem toLower_ne_sep {c : Char} (h : c ≠ '.' ∧ c ≠ '_') :
    c.toLower ≠ '.' ∧ c.toLower ≠ '_' := by
  simp only [Char.toLower]
  split
  · next hcond => exact ofNat_lower_ne (c.toNat + 32) (by omega) (by omega)
  · exact h

theorem capitalizeWord_chars {w : List Char} {c : Char} (hc : c ∈ capitalizeWord w)
    (hw : ∀ a ∈ w, a ≠ '.' ∧ a ≠ '_') : c ≠ '.' ∧ c ≠ '_' := by
  cases w with
  | nil => simp [capitalizeWord] at hc
  | cons a rest =>
    simp only [capitalizeWord, List.mem_cons] at hc
    rcases hc with hc | hc
    · subst hc; exact toUpper_ne_sep (hw a (by simp))
    · obtain ⟨b, hb, hbc⟩ := List.mem_map.mp hc
      subst hbc; exact toLower_ne_sep (hw b (by simp [hb]))

/-- Characters of the words produced by `splitWordsAux` come from the input
list or from the accumulator. -/
theorem splitWordsAux_chars {c : Char} :
    ∀ (l acc w : List Char), w ∈ splitWordsAux l acc → c ∈ w → c ∈ l ∨ c ∈ acc := by
  intro l
  induction l with
  | nil =>
    intro acc w hw hc
    simp only [splitWordsAux] at hw
    split at hw
    · simp at hw
    · simp only [List.mem_singleton] at hw
      subst hw
      right; rwa [List.mem_reverse] at hc
  | cons a rest ih =>
    intro acc w hw hc
    simp only [splitWordsAux] at hw
    split at hw
    · split at hw
      · rcases ih [] w hw hc with h | h
        · left; simp [h]
        · simp at h
      · rcases List.mem_cons.mp hw with hw | hw
        · subst hw
          right; rwa [List.mem_reverse] at hc
        · rcases ih [] w hw hc with h | h
          · left; simp [h]
          · simp at h
    · rcases ih (a :: acc) w hw hc with h | h
      · left; simp [h]
      · rcases List.mem_cons.mp h with h | h
        · left; simp [h]
        · right; exact h

theorem joinSpace_chars {c : Char} :
    ∀ ws : List (List Char), c ∈ joinSpace ws → (∃ w ∈ ws, c ∈ w) ∨ c = ' ' := by
  intro ws
  induction ws with
  | nil => intro h; simp [joinSpace] at h
  | cons w ws ih =>
    intro h
    cases ws with
    | nil =>
      left; exact ⟨w, by simp, by simpa [joinSpace] using h⟩
    | cons w2 ws2 =>
      have hj : joinSpace (w :: w2 :: ws2) = w ++ ' ' :: joinSpace (w2 :: ws2) := rfl
      rw [hj] at h
      rcases List.mem_append.mp h with h | h
      · left; exact ⟨w, by simp, h⟩
      · rcases List.mem_cons.mp h with h | h
        · right; exact h
        · rcases ih h with ⟨w3, hw3, hc3⟩ | h
          · left; exact ⟨w3, by simp [hw3], hc3⟩
          · right; exact h

theorem pyStrip_chars {l : List Char} {c : Char} (h : c ∈ pyStrip l) : c ∈ l := by
  unfold pyStrip at h
  rw [List.mem_reverse] at h
  have h2 := (List.dropWhile_sublist isPySpace).subset h
  rw [List.mem_reverse] at h2
  exact (List.dropWhile_sublist isPySpace).subset h2

/-- Every character of a cleaned title is neither a dot nor an underscore. -/
theorem clean_title_chars {s : String} {c : Char} (h : c ∈ (clean_title s).data) :
    c ≠ '.' ∧ c ≠ '_' := by
  unfold clean_title at h
  rw [data_mk] at h
  have h2 := pyStrip_chars h
  rcases joinSpace_chars _ h2 with ⟨w, hw, hcw⟩ | hsp
  · obtain ⟨w0, hw0, hww⟩ := List.mem_map.mp hw
    subst hww
    refine capitalizeWord_chars hcw ?_
    intro a ha
    unfold splitWords at hw0
    rcases splitWordsAux_chars _ _ _ hw0 ha with h3 | h3
    · exact replaceSeps_chars (List.mem_of_mem_filter h3)
    · simp at h3
  · subst hsp; exact ⟨by decide, by decide⟩

theorem isDigit_bounds {c : Char} (h : c.isDigit = true) : 48 ≤ c.toNat ∧ c.toNat ≤ 57 := by
  simp only [Char.isDigit, Bool.and_eq_true, decide_eq_true_eq] at h
  exact ⟨UInt32.le_toNat_of_le (by decide) h.1, UInt32.toNat_le_of_le (by decide) h.2⟩

theorem isDigit_ne_sep {c : Char} (h : c.isDigit = true) : c ≠ '.' ∧ c ≠ '_' :=
  ⟨fun he => by rw [he] at h; exact absurd h (by decide),
   fun he => by rw [he] at h; exact absurd h (by decide)⟩

/-- A capture produced by `matchDigits12` holds one or two digit characters,
so its numeric value is below 100. -/
theorem matchDigits12_sound {l : List Char} {p : List Char × List Char}
    (h : p ∈ matchDigits12 l) : pyInt p.1 < 100 := by
  unfold matchDigits12 at h
  split at h
  · next c1 c2 rest =>
    by_cases h1 : c1.isDigit = true
    · by_cases h2 : c2.isDigit = true
      · rw [if_pos h1, if_pos h2] at h
        have b1 := isDigit_bounds h1
        have b2 := isDigit_bounds h2
        rcases List.mem_cons.mp h with h | h
        · subst h; simp only [pyInt, List.foldl]; omega
        · rcases List.mem_singleton.mp h with h
          subst h; simp only [pyInt, List.foldl]; omega
      · rw [if_pos h1, if_neg h2] at h
        have b1 := isDigit_bounds h1
        rcases List.mem_singleton.mp h with h
        subst h; simp only [pyInt, List.foldl]; omega
    · rw [if_neg h1] at h
      simp at h
  · next c1 =>
    by_cases h1 : c1.isDigit = true
    · rw [if_pos h1] at h
      have b1 := isDigit_bounds h1
      rcases List.mem_singleton.mp h with h
      subst h; simp only [pyInt, List.foldl]; omega
    · rw [if_neg h1] at h
      simp at h
  · simp at h

/-- The season and episode captures of the first TV tail have numeric value
below 100. -/
theorem tvTail1_sound {l se ep : List Char} (h : tvTail1 l = some (se, ep)) :
    pyInt se < 100 ∧ pyInt ep < 100 := by
  unfold tvTail1 at h
  split at h
  · next rest =>
    obtain ⟨p, hp, hfp⟩ := List.exists_of_findSome?_eq_some h
    split at hfp
    · next rest2 =>
      obtain ⟨q, hq, hfq⟩ := List.exists_of_findSome?_eq_some hfp
      have hse : p.1 = se ∧ q.1 = ep := by
        simpa using hfq
      rw [← hse.1, ← hse.2]
      exact ⟨matchDigits12_sound hp, matchDigits12_sound hq⟩
    · simp at hfp
  · simp at h

/-- The season and episode captures of the second TV tail have numeric value
below 100. -/
theorem tvTail2_sound {l se ep : List Char} (h : tvTail2 l = some (se, ep)) :
    pyInt se < 100 ∧ pyInt ep < 100 := by
  unfold tvTail2 at h
  obtain ⟨p, hp, hfp⟩ := List.exists_of_findSome?_eq_some h
  split at hfp
  · next rest2 =>
    obtain ⟨q, hq, hfq⟩ := List.exists_of_findSome?_eq_some hfp
    have hse : p.1 = se ∧ q.1 = ep := by
      simpa using hfq
    rw [← hse.1, ← hse.2]
    exact ⟨matchDigits12_sound hp, matchDigits12_sound hq⟩
  · simp at hfp

/-- A successful `starMatch` owes its tail captures to a successful tail
match at some position. -/
theorem starMatch_some_tail {α : Type} {tail : List Char → Option α} :
    ∀ {fuel : Nat} {pre l pre2 : List Char} {a : α},
      starMatch tail fuel pre l = some (pre2, a) → ∃ l2, tail l2 = some a := by
  intro fuel
  induction fuel with
  | zero => intro pre l pre2 a h; simp [starMatch] at h
  | succ n ih =>
    intro pre l pre2 a h
    unfold starMatch at h
    cases ht : tail l with
    | some b =>
      rw [ht] at h
      simp only [Option.some.injEq, Prod.mk.injEq] at h
      exact ⟨l, by rw [ht, h.2]⟩
    | none =>
      rw [ht] at h
      obtain ⟨p, hp, hsp⟩ := List.exists_of_findSome?_eq_some h
      exact ih hsp

/-- The four-digit matcher returns digit characters (and a nonempty list). -/
theorem matchDigits4_sound {l y : List Char} (h : matchDigits4 l = some y) :
    (∀ c ∈ y, c.isDigit = true) ∧ y ≠ [] := by
  unfold matchDigits4 at h
  split at h
  · next c1 c2 c3 c4 rest =>
    by_cases hd : (c1.isDigit && c2.isDigit && c3.isDigit && c4.isDigit) = true
    · rw [if_pos hd] at h
      simp only [Option.some.injEq] at h
      subst h
      simp only [Bool.and_eq_true] at hd
      refine ⟨?_, by simp⟩
      intro c hc
      rcases List.mem_cons.mp hc with h | hc
      · subst h; exact hd.1.1.1
      rcases List.mem_cons.mp hc with h | hc
      · subst h; exact hd.1.1.2
      rcases List.mem_cons.mp hc with h | hc
      · subst h; exact hd.1.2
      rcases List.mem_singleton.mp hc with h
      subst h; exact hd.2
    · rw [if_neg hd] at h
      simp at h
  · simp at h

/-- The year capture of the first movie tail is a nonempty all-digit list. -/
theorem movieTail1_sound {l y : List Char} (h : movieTail1 l = some y) :
    (∀ c ∈ y, c.isDigit = true) ∧ y ≠ [] := by
  unfold movieTail1 at h
  split at h
  · next c rest =>
    by_cases hb : (c == '[' || c == '(') = true
    · rw [if_pos hb] at h
      cases hm : matchDigits4 rest with
      | some y2 => rw [hm] at h; simp only [Option.some.injEq] at h; subst h; exact matchDigits4_sound hm
      | none => rw [hm] at h; exact matchDigits4_sound h
    · rw [if_neg hb] at h
      exact matchDigits4_sound h
  · simp at h

/-- The year capture of the second movie tail is a nonempty all-digit list. -/
theorem movieTail2_sound {l y : List Char} (h : movieTail2 l = some y) :
    (∀ c ∈ y, c.isDigit = true) ∧ y ≠ [] := by
  unfold movieTail2 at h
  split at h
  · next c1 c2 c3 c4 rest =>
    by_cases hd : (c1.isDigit && c2.isDigit && c3.isDigit && c4.isDigit) = true
    · rw [if_pos hd] at h
      simp only [Option.some.injEq] at h
      subst h
      simp only [Bool.and_eq_true] at hd
      refine ⟨?_, by simp⟩
      intro c hc
      rcases List.mem_cons.mp hc with h | hc
      · subst h; exact hd.1.1.1
      rcases List.mem_cons.mp hc with h | hc
      · subst h; exact hd.1.1.2
      rcases List.mem_cons.mp hc with h | hc
      · subst h; exact hd.1.2
      rcases List.mem_singleton.mp hc with h
      subst h; exact hd.2
    · rw [if_neg hd] at h
      simp at h
  · simp at h

/-- A TV classification carries season/episode values below 100. -/
theorem parse_tv_bounds {s : String} {pre se ep : List Char}
    (h : tv_patterns.findSome? (fun pat => pat s.data) = some (pre, se, ep)) :
    pyInt se < 100 ∧ pyInt ep < 100 := by
  obtain ⟨pat, hpat, hps⟩ := List.exists_of_findSome?_eq_some h
  simp only [tv_patterns, List.mem_cons, List.not_mem_nil, or_false] at hpat
  rcases hpat with rfl | rfl
  · unfold tvPattern1 runPattern at hps
    obtain ⟨l2, hl2⟩ := starMatch_some_tail hps
    exact tvTail1_sound hl2
  · unfold tvPattern2 runPattern at hps
    obtain ⟨l2, hl2⟩ := starMatch_some_tail hps
    exact tvTail2_sound hl2

/-- A movie classification carries a nonempty all-digit year capture. -/
theorem parse_movie_digits {s : String} {pre yr : List Char}
    (h : movie_patterns.findSome? (fun pat => pat s.data) = some (pre, yr)) :
    (∀ c ∈ yr, c.isDigit = true) ∧ yr ≠ [] := by
  obtain ⟨pat, hpat, hps⟩ := List.exists_of_findSome?_eq_some h
  simp only [movie_patterns, List.mem_cons, List.not_mem_nil, or_false] at hpat
  rcases hpat with rfl | rfl
  · unfold moviePattern1 runPattern at hps
    obtain ⟨l2, hl2⟩ := starMatch_some_tail hps
    exact movieTail1_sound hl2
  · unfold moviePattern2 runPattern at hps
    obtain ⟨l2, hl2⟩ := starMatch_some_tail hps
    exact movieTail2_sound hl2

/-- Decimal representations of numbers below 100 contain no separator
characters and are nonempty. -/
theorem repr_lt100_props :
    ∀ n : Nat, n < 100 →
      '.' ∉ (Nat.repr n).data ∧ '_' ∉ (Nat.repr n).data ∧ (Nat.repr n).isEmpty = false := by
  decide

/-- Characters of `zfill t w` are characters of `t` or the padding `'0'`. -/
theorem zfill_chars {t : String} {w : Nat} {c : Char} (hc : c ∈ (zfill t w).data)
    (ht : ∀ a ∈ t.data, a ≠ '.' ∧ a ≠ '_') : c ≠ '.' ∧ c ≠ '_' := by
  unfold zfill at hc
  cases hdata : t.data with
  | nil =>
    simp only [hdata, data_mk, List.mem_replicate] at hc
    rw [hc.2]
    exact ⟨by decide, by decide⟩
  | cons c0 rest =>
    simp only [hdata] at hc
    have hzero : ('0' : Char) ≠ '.' ∧ ('0' : Char) ≠ '_' := ⟨by decide, by decide⟩
    by_cases hb : (c0 == '+' || c0 == '-') = true
    · rw [if_pos hb] at hc
      simp only [data_mk, List.mem_cons, List.mem_append, List.mem_replicate] at hc
      rcases hc with hc | hc | hc
      · subst hc; exact ht c (hdata ▸ List.mem_cons_self _ _)
      · rw [hc.2]; exact hzero
      · exact ht c (hdata ▸ List.mem_cons_of_mem _ hc)
    · rw [if_neg hb] at hc
      simp only [data_mk, List.mem_append, List.mem_replicate] at hc
      rcases hc with hc | hc
      · rw [hc.2]; exact hzero
      · exact ht c (hdata ▸ hc)

/-- C8: the composition of parsing and rendering never produces a filename
containing the original separator characters `.` or `_`, in any of the three
classification branches. -/
theorem c8_no_separators (s : String) :
    ((generate_filename (parse_filename s)).data.all
      (fun c => !(c == '.') && !(c == '_'))) = true := by
  rw [List.all_eq_true]
  intro c hc
  suffices hg : c ≠ '.' ∧ c ≠ '_' by
    simp only [Bool.and_eq_true, Bool.not_eq_true', beq_eq_false_iff_ne]
    exact hg
  revert hc
  unfold parse_filename
  cases htv : tv_patterns.findSome? (fun pat => pat s.data) with
  | some r =>
    obtain ⟨pre, se, ep⟩ := r
    have hb := parse_tv_bounds htv
    have h1 := repr_lt100_props _ hb.1
    have h2 := repr_lt100_props _ hb.2
    have hse : ∀ a ∈ (Nat.repr (pyInt se)).data, a ≠ '.' ∧ a ≠ '_' := fun a ha =>
      ⟨fun he => h1.1 (he ▸ ha), fun he => h1.2.1 (he ▸ ha)⟩
    have hep : ∀ a ∈ (Nat.repr (pyInt ep)).data, a ≠ '.' ∧ a ≠ '_' := fun a ha =>
      ⟨fun he => h2.1 (he ▸ ha), fun he => h2.2.1 (he ▸ ha)⟩
    have hgen : generate_filename
        { title := clean_title (String.mk pre)
          season := some (Nat.repr (pyInt se))
          episode := some (Nat.repr (pyInt ep)) } =
        clean_title (String.mk pre) ++ " - S" ++ zfill (Nat.repr (pyInt se)) 2
          ++ "E" ++ zfill (Nat.repr (pyInt ep)) 2 := by
      unfold generate_filename
      simp [pyTruthy, h1.2.2, h2.2.2]
    intro hc
    rw [hgen] at hc
    simp only [String.data_append, List.mem_append] at hc
    rcases hc with ((((hc | hc) | hc) | hc) | hc)
    · exact clean_title_chars hc
    · have h4 : c = ' ' ∨ c = '-' ∨ c = ' ' ∨ c = 'S' := by simpa using hc
      rcases h4 with rfl | rfl | rfl | rfl <;> exact ⟨by decide, by decide⟩
    · exact zfill_chars hc hse
    · have h4 : c = 'E' := by simpa using hc
      subst h4; exact ⟨by decide, by decide⟩
    · exact zfill_chars hc hep
  | none =>
    cases hm : movie_patterns.findSome? (fun pat => pat s.data) with
    | some r =>
      obtain ⟨pre, yr⟩ := r
      have hdig := parse_movie_digits hm
      have hempty : (String.mk yr).isEmpty = false := by
        rw [Bool.eq_false_iff]
        intro hemp
        have h3 := (String.isEmpty_iff (String.mk yr)).mp hemp
        rw [String.ext_iff, data_mk] at h3
        exact hdig.2 (by simpa using h3)
      have hgen : generate_filename
          { title := clean_title (String.mk pre), year := some (String.mk yr) } =
          clean_title (String.mk pre) ++ " (" ++ String.mk yr ++ ")" := by
        unfold generate_filename
        simp [pyTruthy, hempty]
      intro hc
      rw [hgen] at hc
      simp only [String.data_append, List.mem_append] at hc
      rcases hc with ((hc | hc) | hc) | hc
      · exact clean_title_chars hc
      · have h4 : c = ' ' ∨ c = '(' := by simpa using hc
        rcases h4 with rfl | rfl <;> exact ⟨by decide, by decide⟩
      · exact isDigit_ne_sep (hdig.1 c hc)
      · have h4 : c = ')' := by simpa using hc
        subst h4; exact ⟨by decide, by decide⟩
    | none =>
      have hgen : generate_filename { title := clean_title s } = clean_title s := by
        unfold generate_filename
        simp [pyTruthy]
      intro hc
      rw [hgen] at hc
      exact clean_title_chars hc

/-- C5: the output rules of `generate_filename` in priority order.  When
season and episode are both set and nonempty the TV shape is produced and
the year field is ignored (it is universally quantified); otherwise a truthy
year produces the movie shape; otherwise the bare title is returned.  The
function is total, hence has no failure modes. -/
theorem c5_generate_rules :
    (∀ (t : String) (yr : Option String) (se ep : String), se ≠ "" → ep ≠ "" →
      generate_filename { title := t, year := yr, season := some se, episode := some ep } =
        t ++ " - S" ++ zfill se 2 ++ "E" ++ zfill ep 2) ∧
    (∀ m : MediaInfo, (pyTruthy m.season && pyTruthy m.episode) = false →
      pyTruthy m.year = true →
      generate_filename m = m.title ++ " (" ++ m.year.getD "" ++ ")") ∧
    (∀ m : MediaInfo, (pyTruthy m.season && pyTruthy m.episode) = false →
      pyTruthy m.year = false → generate_filename m = m.title) := by
  refine ⟨?_, ?_, ?_⟩
  · intro t yr se ep hse hep
    have h1 : se.isEmpty = false := by
      rw [Bool.eq_false_iff]; intro h; exact hse ((String.isEmpty_iff se).mp h)
    have h2 : ep.isEmpty = false := by
      rw [Bool.eq_false_iff]; intro h; exact hep ((String.isEmpty_iff ep).mp h)
    unfold generate_filename
    simp [pyTruthy, h1, h2]
  · intro m hc hy
    unfold generate_filename
    simp [hc, hy]
  · intro m hc hy
    unfold generate_filename
    simp [hc, hy]

/-- Witness for C5: the TV branch at a concrete `MediaInfo` whose year field
is also set, showing the year is ignored. -/
theorem c5_generate_rules_witness :
    generate_filename
      { title := "Show Name", year := some "1999", season := some "1", episode := some "2" } =
      "Show Name - S01E02" :=
  (c5_generate_rules.1 "Show Name" (some "1999") "1" "2" (by decide) (by decide)).trans
    (by decide)

/-- C9: title cleaning as implemented coincides extensionally with the
wording of the specification (replace dot/underscore by space, keep only
alphanumeric/whitespace/hyphen, capitalize every whitespace-separated word,
trim), and `parse_filename "random_file_name"` is the fallback
`MediaInfo` with title `"Random File Name"` and nothing else set. -/
theorem c9_clean_title :
    (∀ s : String, clean_title s = cleanTitleSpec s) ∧
    parse_filename "random_file_name" = { title := "Random File Name" } := by
  constructor
  · intro s
    unfold clean_title cleanTitleSpec removeUnwanted
    have hf : (replaceSeps s.data).filter (fun c => isWordChar c || isPySpace c || c == '-') =
        (replaceSeps s.data).filter (fun c => c.isAlphanum || isPySpace c || c == '-') := by
      apply List.filter_congr
      intro c hcmem
      have h2 := replaceSeps_chars hcmem
      have hu : (c == '_') = false := by
        rw [beq_eq_false_iff_ne]; exact h2.2
      simp [isWordChar, Char.isAlphanum, hu, Bool.or_assoc]
    rw [hf]
  · decide

theorem findSome?_isSome_mono {α β γ : Type} {f : α → Option β} {g : α → Option γ}
    {xs : List α} (h : ∀ x ∈ xs, (f x).isSome = true → (g x).isSome = true)
    (hs : (xs.findSome? f).isSome = true) : (xs.findSome? g).isSome = true := by
  rw [List.findSome?_isSome_iff] at hs ⊢
  obtain ⟨x, hx, hfx⟩ := hs
  exact ⟨x, hx, h x hx hfx⟩

/-- Whenever the tail of the second movie pattern matches, so does the tail
of the first: an opening parenthesis followed by four digits satisfies the
optional-bracket-plus-digits shape. -/
theorem movieTail2_implies_movieTail1 {l : List Char}
    (h : (movieTail2 l).isSome = true) : (movieTail1 l).isSome = true := by
  rw [Option.isSome_iff_exists] at h
  obtain ⟨y, hy⟩ := h
  unfold movieTail2 at hy
  split at hy
  · next c1 c2 c3 c4 rest =>
    by_cases hd : (c1.isDigit && c2.isDigit && c3.isDigit && c4.isDigit) = true
    · unfold movieTail1 matchDigits4
      simp [hd]
    · rw [if_neg hd] at hy; simp at hy
  · simp at hy

/-- Pointwise tail strengthening lifts through the backtracking star at any
fuel: if the star succeeds with the stronger tail it succeeds with the
weaker one. -/
theorem starMatch_isSome_mono {α β : Type} {t2 : List Char → Option α}
    {t1 : List Char → Option β} (himp : ∀ l, (t2 l).isSome = true → (t1 l).isSome = true) :
    ∀ (fuel : Nat) (pre l : List Char),
      (starMatch t2 fuel pre l).isSome = true → (starMatch t1 fuel pre l).isSome = true := by
  intro fuel
  induction fuel with
  | zero => intro pre l h; simp [starMatch] at h
  | succ n ih =>
    intro pre l hs
    unfold starMatch at hs ⊢
    cases ht1 : t1 l with
    | some b => simp
    | none =>
      cases ht2 : t2 l with
      | some a =>
        have := himp l (by simp [ht2])
        rw [ht1] at this; simp at this
      | none =>
        rw [ht2] at hs
        dsimp only at hs ⊢
        exact findSome?_isSome_mono (fun p hp => ih (pre ++ p.1) p.2) hs

/-- C10: whenever the second movie pattern matches a string, the first movie
pattern (tried before it) also matches; consequently the second movie
pattern never determines the result and `parse_filename` is extensionally
equal to the variant whose movie pattern list omits it. -/
theorem c10_dead_pattern :
    (∀ s : String, (moviePattern2 s.data).isSome = true →
      (moviePattern1 s.data).isSome = true) ∧
    (∀ s : String, parse_filename s = parse_filename_noM2 s) := by
  have hpat : ∀ l : List Char, (moviePattern2 l).isSome = true →
      (moviePattern1 l).isSome = true := by
    intro l
    unfold moviePattern2 moviePattern1 runPattern
    exact starMatch_isSome_mono (fun l2 => movieTail2_implies_movieTail1) _ _ _
  constructor
  · intro s
    exact hpat s.data
  · intro s
    unfold parse_filename parse_filename_noM2
    cases htv : tv_patterns.findSome? (fun pat => pat s.data) with
    | some r => rfl
    | none =>
      simp only [movie_patterns, List.findSome?]
      cases h1 : moviePattern1 s.data with
      | some r => rfl
      | none =>
        cases h2 : moviePattern2 s.data with
        | none => rfl
        | some r =>
          exfalso
          have h3 := hpat s.data (by simp [h2])
          rw [h1] at h3
          simp at h3

/-- Witness for C10 at `"Movie.Name.(2024)"`, which the second movie pattern
matches. -/
theorem c10_dead_pattern_witness :
    (moviePattern1 "Movie.Name.(2024)".data).isSome = true :=
  c10_dead_pattern.1 "Movie.Name.(2024)" (by decide)

end MakeMP4s
